import Mathlib

/-!
Shallow embedding of the PDF structure-extraction and layout-reconstruction
core (worker/src/services/pdf_structure.py and pdf_rebuild.py), together with
theorems checking the specification claims against it.

Conventions of the embedding:
* Python floats are modelled as rationals; the code only adds, subtracts,
  multiplies, divides by constants and compares, so behaviour agrees on all
  representable inputs.
* Python strings are modelled as Lean strings, with Python-style helpers
  (strip, lower, startswith, substring containment, whitespace split)
  implemented over character lists.
* The reportlab canvas is modelled as a list of emitted draw operations;
  the external stringWidth metric is an abstract parameter.
-/

namespace PdfCore

/-- RGB color triple, channels in the unit interval. -/
structure RGB where
  r : ℚ
  g : ℚ
  b : ℚ
deriving DecidableEq, Repr

/-- Embeds TextElement from pdf_structure.py. -/
structure TextElement where
  text : String
  x : ℚ
  y : ℚ
  font_name : String
  font_size : ℚ
  color : RGB
deriving DecidableEq, Repr

/-- Embeds GraphicElement from pdf_structure.py. -/
structure GraphicElement where
  element_type : String
  x : ℚ
  y : ℚ
  width : ℚ
  height : ℚ
  color : RGB
  fill : Bool
deriving DecidableEq, Repr

/-- Mean channel intensity of a color, as computed in _find_background_for_y. -/
def meanIntensity (c : RGB) : ℚ := (c.r + c.g + c.b) / 3

/-- One step of the _find_background_for_y loop: the running last_bg is
updated by one graphic element exactly as in the Python loop body. -/
def bgStep (y_topdown : ℚ) (last_bg : Option RGB) (graphic : GraphicElement) : Option RGB :=
  if graphic.fill = true ∧ graphic.element_type = "rect" then
    if graphic.y ≤ y_topdown ∧ y_topdown ≤ graphic.y + graphic.height then
      let avg := meanIntensity graphic.color
      if avg < 1/2 then last_bg
      else if avg > 98/100 then none
      else some graphic.color
    else last_bg
  else last_bg

/-- Embeds _find_background_for_y from pdf_rebuild.py: fold the loop body
over the graphic elements in original draw order, starting from no
background. -/
def find_background_for_y (y_topdown : ℚ) (graphic_elements : List GraphicElement) :
    Option RGB :=
  graphic_elements.foldl (bgStep y_topdown) none

/-- A graphic element is in-band for y when it is a filled rect whose
vertical span contains y. -/
def inBand (y : ℚ) (g : GraphicElement) : Prop :=
  g.fill = true ∧ g.element_type = "rect" ∧ g.y ≤ y ∧ y ≤ g.y + g.height

/-- A qualifying element is in-band with mean intensity in [0.5, 0.98]. -/
def qualifying (y : ℚ) (g : GraphicElement) : Prop :=
  inBand y g ∧ 1/2 ≤ meanIntensity g.color ∧ meanIntensity g.color ≤ 98/100

/-- A resetting element is in-band with mean intensity above 0.98. -/
def resetting (y : ℚ) (g : GraphicElement) : Prop :=
  inBand y g ∧ 98/100 < meanIntensity g.color

instance (y : ℚ) (g : GraphicElement) : Decidable (inBand y g) := by
  unfold inBand; infer_instance

instance (y : ℚ) (g : GraphicElement) : Decidable (qualifying y g) := by
  unfold qualifying; infer_instance

instance (y : ℚ) (g : GraphicElement) : Decidable (resetting y g) := by
  unfold resetting; infer_instance

/-- Reading-order comparison used by the code: sort key (y, x) ascending,
lexicographically, as produced by the Python sorted key lambda. -/
def yxR (a b : TextElement) : Prop := a.y < b.y ∨ (a.y = b.y ∧ a.x ≤ b.x)

instance : DecidableRel yxR := fun a b => by unfold yxR; infer_instance

instance : IsTotal TextElement yxR := by
  constructor
  intro a b
  rcases lt_trichotomy a.y b.y with h | h | h
  · exact Or.inl (Or.inl h)
  · rcases le_total a.x b.x with hx | hx
    · exact Or.inl (Or.inr ⟨h, hx⟩)
    · exact Or.inr (Or.inr ⟨h.symm, hx⟩)
  · exact Or.inr (Or.inl h)

instance : IsTrans TextElement yxR := by
  constructor
  intro a b c hab hbc
  rcases hab with h1 | ⟨h1, hx1⟩
  · rcases hbc with h2 | ⟨h2, _⟩
    · exact Or.inl (h1.trans h2)
    · exact Or.inl (h2 ▸ h1)
  · rcases hbc with h2 | ⟨h2, hx2⟩
    · exact Or.inl (h1 ▸ h2)
    · exact Or.inr ⟨h1.trans h2, hx1.trans hx2⟩

/-- Modelled from the spec: the replay-mode overlap guard (spec 4.4, replay
mode, steps 4 and 5). The replay renderer is not present in the repository
source under src; this definition follows the spec words: baselines are
processed in order, each placed at min(desired_y, previous_baseline -
font_size), the first at its desired position. Input pairs are
(desired baseline, font size). -/
def overlapGuard : Option ℚ → List (ℚ × ℚ) → List ℚ
  | _, [] => []
  | prev, df :: rest =>
    let b := match prev with
      | none => df.1
      | some p => min df.1 (p - df.2)
    b :: overlapGuard (some b) rest

/-- Modelled from the spec: replay-mode baseline computation (spec 4.4,
replay mode, steps 3 and 4): sort elements by (y, x) ascending, convert each
top-down y to a bottom-up baseline via page_height - y - font_size, then
apply the overlap guard. -/
def replayBaselines (page_height : ℚ) (elems : List TextElement) : List ℚ :=
  overlapGuard none
    ((List.insertionSort yxR elems).map (fun e => (page_height - e.y - e.font_size, e.font_size)))

/-- Python str.strip with no argument: drop leading and trailing whitespace
characters. -/
def pyStrip (s : String) : String :=
  String.mk (((s.toList.dropWhile Char.isWhitespace).reverse.dropWhile
    Char.isWhitespace).reverse)

/-- Python str.lower, character by character. -/
def pyLower (s : String) : String := String.mk (s.toList.map Char.toLower)

/-- Python slice s[:n]: the first n characters. -/
def pyTake (s : String) (n : ℕ) : String := String.mk (s.toList.take n)

/-- Python startswith over character lists: the second list is an initial
segment of the first. -/
def startsWithL : List Char → List Char → Bool
  | _, [] => true
  | [], _ :: _ => false
  | a :: as, b :: bs => a == b && startsWithL as bs

/-- Python substring containment over character lists: the pattern occurs
contiguously in the subject. -/
def containsL : List Char → List Char → Bool
  | [], pat => pat.isEmpty
  | s@(_ :: rest), pat => startsWithL s pat || containsL rest pat

/-- Python str.startswith on strings. -/
def pyStartsWith (s pat : String) : Bool := startsWithL s.toList pat.toList

/-- Python in-operator for strings: pat is a substring of s. -/
def pyContains (s pat : String) : Bool := containsL s.toList pat.toList

/-- Helper for pySplit: accumulate the current word (reversed) while
scanning. -/
def splitWsAux : List Char → List Char → List String
  | [], cur => if cur.isEmpty then [] else [String.mk cur.reverse]
  | c :: rest, cur =>
    if c.isWhitespace then
      if cur.isEmpty then splitWsAux rest []
      else String.mk cur.reverse :: splitWsAux rest []
    else splitWsAux rest (c :: cur)

/-- Python str.split with no argument: split on whitespace runs, dropping
empty pieces. -/
def pySplit (s : String) : List String := splitWsAux s.toList []

/-- Embeds the per-candidate scoring ladder inside _match_text_to_elements
(pdf_rebuild.py lines 122-146); both arguments are already stripped and
lowercased. -/
def matchScore (line_lower elem_text : String) : ℕ :=
  if line_lower = elem_text then 100
  else if pyStartsWith line_lower (pyTake elem_text 20) then 90
  else if pyStartsWith elem_text (pyTake line_lower 20) then 85
  else if pyContains line_lower elem_text then 80
  else if pyContains elem_text line_lower then 70
  else
    let line_words := (pySplit line_lower).take 2
    let elem_words := (pySplit elem_text).take 2
    if 2 ≤ line_words.length ∧ 2 ≤ elem_words.length ∧ line_words = elem_words then 60
    else if line_words ≠ [] ∧ elem_words ≠ [] ∧ line_words.head? = elem_words.head? then 50
    else 0

/-- Score of an element against a lowered line, with the empty-element skip
of the loop folded in: a candidate whose stripped text is empty is skipped,
which behaves like score 0. -/
def scoreOf (line_lower : String) (e : TextElement) : ℕ :=
  let et := pyLower (pyStrip e.text)
  if et = "" then 0 else matchScore line_lower et

/-- One iteration of the inner candidate loop of _match_text_to_elements:
the running (best_match, best_score) pair updated by one element. -/
def bestStep (line_lower : String) (acc : Option TextElement × ℕ) (e : TextElement) :
    Option TextElement × ℕ :=
  let et := pyLower (pyStrip e.text)
  if et = "" then acc
  else
    let score := matchScore line_lower et
    if acc.2 < score then (some e, score) else acc

/-- The inner candidate loop of _match_text_to_elements, started from
(None, 0). -/
def findBest (line_lower : String) (elems : List TextElement) : Option TextElement × ℕ :=
  elems.foldl (bestStep line_lower) (none, 0)

/-- Per-line body of _match_text_to_elements: skip trivial lines, run the
candidate loop, accept only above the threshold of 45. -/
def matchLine (text_elements : List TextElement) (line : String) : Option TextElement :=
  let ls := pyStrip line
  if ls = "" ∨ ls.length < 3 then none
  else
    let best := findBest (pyLower ls) text_elements
    match best.1 with
    | some e => if 45 < best.2 then some e else none
    | none => none

/-- Embeds _match_text_to_elements from pdf_rebuild.py: the dict from line
index to best match is modelled as a positional list of options (entry i is
the match for line i, none when unmatched). -/
def match_text_to_elements (cleaned_lines : List String) (text_elements : List TextElement) :
    List (Option TextElement) :=
  if text_elements.isEmpty then cleaned_lines.map (fun _ => none)
  else cleaned_lines.map (matchLine text_elements)

/-- Greatest candidate score over a list of elements. -/
def maxScore (line_lower : String) (es : List TextElement) : ℕ :=
  es.foldr (fun e m => max (scoreOf line_lower e) m) 0

/-- One text span of the parser dict output consumed by
_extract_text_with_fitz: text, font, size and packed integer color. -/
structure Span where
  text : String
  font : String
  size : ℚ
  color : ℕ
deriving DecidableEq, Repr

/-- One parsed line of a text block: its spans and bounding box
(x0, y0, x1, y1), y top-down. -/
structure FitzLine where
  spans : List Span
  x0 : ℚ
  y0 : ℚ
  x1 : ℚ
  y1 : ℚ
deriving DecidableEq, Repr

/-- One parser block: its type code (0 for text blocks) and lines. -/
structure Block where
  btype : ℕ
  lines : List FitzLine
deriving DecidableEq, Repr

/-- Color decoding in _extract_text_with_fitz: the packed integer is split
into 8-bit channels and normalized by 255. -/
def decodeColor (c : ℕ) : RGB :=
  ⟨(((c >>> 16) % 256 : ℕ) : ℚ) / 255,
   (((c >>> 8) % 256 : ℕ) : ℚ) / 255,
   ((c % 256 : ℕ) : ℚ) / 255⟩

/-- Spans of a line whose stripped text is non-empty; the span loop in
_extract_text_with_fitz skips the others. -/
def goodSpans (l : FitzLine) : List Span :=
  l.spans.filter (fun s => pyStrip s.text ≠ "")

/-- Concatenated text of the retained spans of a line. -/
def lineTextOf (l : FitzLine) : String :=
  String.join ((goodSpans l).map (fun s => s.text))

/-- Per-line body of _extract_text_with_fitz: drop a line with no retained
span or blank text, drop a line whose bbox is fully off-page, decode the
first span's color, drop near-white text, otherwise build the TextElement. -/
def processLine (page_w page_h : ℚ) (l : FitzLine) : Option TextElement :=
  match goodSpans l with
  | [] => none
  | first_span :: _ =>
    let line_text := lineTextOf l
    if pyStrip line_text = "" then none
    else if l.x1 < 0 ∨ l.x0 > page_w ∨ l.y1 < 0 ∨ l.y0 > page_h then none
    else
      let c := decodeColor first_span.color
      if c.r > 9/10 ∧ c.g > 9/10 ∧ c.b > 9/10 then none
      else some ⟨pyStrip line_text, l.x0, l.y0, first_span.font, first_span.size, c⟩

/-- Embeds _extract_text_with_fitz from pdf_structure.py: only type-0 blocks
contribute, each line independently filtered and converted. -/
def extract_text_with_fitz (page_w page_h : ℚ) (blocks : List Block) : List TextElement :=
  (blocks.filter (fun b => b.btype = 0)).flatMap
    (fun b => b.lines.filterMap (processLine page_w page_h))

/-- Embeds PageStructure from pdf_structure.py. -/
structure PageStructure where
  page_num : ℕ
  width : ℚ
  height : ℚ
  text_elements : List TextElement
  graphic_elements : List GraphicElement
  raw_text : String
deriving DecidableEq, Repr

/-- Construction of raw_text in extract_pdf_structure: text of the elements
sorted by (y, x) ascending, newline-joined. -/
def buildRawText (elems : List TextElement) : String :=
  String.intercalate "\n" ((List.insertionSort yxR elems).map (fun e => e.text))

/-- Embeds the per-page body of extract_pdf_structure: text elements from
_extract_text_with_fitz, raw_text derived from them, graphics passed
through. -/
def extract_page (page_num : ℕ) (w h : ℚ) (blocks : List Block)
    (gs : List GraphicElement) : PageStructure :=
  let tes := extract_text_with_fitz w h blocks
  ⟨page_num, w, h, tes, gs, buildRawText tes⟩

/-- Geometric statement that a line's bounding box meets the closed page
rectangle from 0 to width by 0 to height. -/
def bboxIntersectsPage (w h : ℚ) (l : FitzLine) : Prop :=
  ∃ px py : ℚ, l.x0 ≤ px ∧ px ≤ l.x1 ∧ 0 ≤ px ∧ px ≤ w ∧
    l.y0 ≤ py ∧ py ≤ l.y1 ∧ 0 ≤ py ∧ py ≤ h

/-- Python str.endswith. -/
def pyEndsWith (s pat : String) : Bool :=
  startsWithL s.toList.reverse pat.toList.reverse

/-- Helper for pySplitLines: accumulate the current line (reversed). -/
def splitNlAux : List Char → List Char → List String
  | [], cur => [String.mk cur.reverse]
  | c :: rest, cur =>
    if c = '\n' then String.mk cur.reverse :: splitNlAux rest []
    else splitNlAux rest (c :: cur)

/-- Python str.split on a single newline separator. -/
def pySplitLines (s : String) : List String := splitNlAux s.toList []

/-- Python lstrip of leading slash characters, as in _map_font_name. -/
def stripSlashes (s : String) : String :=
  String.mk (s.toList.dropWhile (fun c => c = '/'))

/-- The exact-alias table of _map_font_name in pdf_rebuild.py. -/
def fontTable : List (String × String) :=
  [("Helvetica", "Helvetica"),
   ("Helvetica-Bold", "Helvetica-Bold"),
   ("Helvetica-Oblique", "Helvetica-Oblique"),
   ("Helvetica-BoldOblique", "Helvetica-BoldOblique"),
   ("Times-Roman", "Times-Roman"),
   ("Times-Bold", "Times-Bold"),
   ("Times-Italic", "Times-Italic"),
   ("Times-BoldItalic", "Times-BoldItalic"),
   ("TimesNewRoman", "Times-Roman"),
   ("TimesNewRomanPS", "Times-Roman"),
   ("TimesNewRomanPSMT", "Times-Roman"),
   ("TimesNewRoman-Bold", "Times-Bold"),
   ("TimesNewRomanPS-Bold", "Times-Bold"),
   ("TimesNewRomanPS-BoldMT", "Times-Bold"),
   ("TimesNewRoman-Italic", "Times-Italic"),
   ("TimesNewRomanPS-Italic", "Times-Italic"),
   ("TimesNewRomanPS-ItalicMT", "Times-Italic"),
   ("TimesNewRoman-BoldItalic", "Times-BoldItalic"),
   ("TimesNewRomanPS-BoldItalic", "Times-BoldItalic"),
   ("TimesNewRomanPS-BoldItalicMT", "Times-BoldItalic"),
   ("Courier", "Courier"),
   ("Courier-Bold", "Courier-Bold"),
   ("Courier-Oblique", "Courier-Oblique"),
   ("Courier-BoldOblique", "Courier-BoldOblique")]

/-- Embeds _map_font_name from pdf_rebuild.py: strip leading slashes, exact
table lookup, then substring classification with Helvetica default. -/
def map_font_name (pdf_font_name : String) : String :=
  let font := stripSlashes pdf_font_name
  match fontTable.lookup font with
  | some m => m
  | none =>
    if pyContains font "Times" then
      if pyContains font "Bold" ∧ pyContains font "Italic" then "Times-BoldItalic"
      else if pyContains font "Bold" then "Times-Bold"
      else if pyContains font "Italic" then "Times-Italic"
      else "Times-Roman"
    else if pyContains font "Bold" ∧ pyContains font "Italic" then "Helvetica-BoldOblique"
    else if pyContains font "Bold" then "Helvetica-Bold"
    else if pyContains font "Italic" ∨ pyContains font "Oblique" then "Helvetica-Oblique"
    else "Helvetica"

/-- One abstract canvas draw operation; setFillColor and setFont calls are
recorded, a filled or stroked rectangle carries its color. -/
inductive Op where
  | setFont (name : String) (size : ℚ)
  | setFill (color : RGB)
  | drawString (x y : ℚ) (text : String)
  | drawRect (x y w h : ℚ) (color : RGB) (fill : Bool)
deriving DecidableEq, Repr

/-- Header test in _rebuild_page_with_metadata: ends with a question mark
and is under 100 characters. -/
def is_header_line (line : String) : Bool :=
  pyEndsWith line "?" && line.length < 100

/-- Mutable cursor state of the flow-mode drawing loop: the sequential
bottom-up y and whether the body-text break has fired. -/
structure FlowState where
  seq_y : ℚ
  halted : Bool
deriving DecidableEq, Repr

/-- The body-text word-wrapping loop of _rebuild_page_with_metadata (lines
306-323): greedy fill against the width budget, flushing a line only while
the cursor is at or above the margin. Returns emitted ops and the new
cursor. -/
def wrapLoop (sw : String → String → ℚ → ℚ) (font : String) (size maxw margin : ℚ) :
    List String → String → ℚ → List Op × ℚ
  | [], cur, seq_y =>
    if cur ≠ "" ∧ margin ≤ seq_y then
      ([Op.drawString margin seq_y cur], seq_y - size * (13/10))
    else ([], seq_y)
  | w :: ws, cur, seq_y =>
    let test := if cur ≠ "" then cur ++ " " ++ w else w
    if sw test font size ≤ maxw then
      wrapLoop sw font size maxw margin ws test seq_y
    else if cur ≠ "" ∧ margin ≤ seq_y then
      let r := wrapLoop sw font size maxw margin ws w (seq_y - size * (13/10))
      (Op.drawString margin seq_y cur :: r.1, r.2)
    else wrapLoop sw font size maxw margin ws w seq_y

/-- Per-line body of the Step 2 drawing loop of _rebuild_page_with_metadata
(lines 252-323): blank lines advance the cursor, small SCANNED artifacts are
skipped, headers draw at the matched position or the sequential cursor, body
lines word-wrap with matched or default styling, and a body line reached
with the cursor below the margin halts the loop. -/
def renderLine (sw : String → String → ℚ → ℚ) (page_h page_w : ℚ)
    (st : FlowState) (rawLine : String) (matched : Option TextElement) :
    FlowState × List Op :=
  if st.halted then (st, [])
  else
    let line := pyStrip rawLine
    if line = "" then ({ st with seq_y := st.seq_y - 7 }, [])
    else if pyContains line "SCANNED" = true ∧ line.length < 20 then (st, [])
    else if is_header_line line then
      match matched with
      | some m =>
        let font_name := map_font_name m.font_name
        let font_size := if m.font_size > 0 then m.font_size else 16
        let draw_y := page_h - m.y - font_size
        ({ st with seq_y := draw_y - font_size * (3/2) - 5 },
          [Op.setFont font_name font_size, Op.setFill m.color,
           Op.drawString 50 draw_y line])
      | none =>
        ({ st with seq_y := st.seq_y - 16 * (3/2) - 5 },
          [Op.setFont "Helvetica-Bold" 16, Op.setFill ⟨0, 0, 0⟩,
           Op.drawString 50 st.seq_y line])
    else
      let font_name := match matched with
        | some m => map_font_name m.font_name
        | none => "Times-Roman"
      let font_size := match matched with
        | some m => if m.font_size > 0 then m.font_size else 11
        | none => 11
      let text_color := match matched with
        | some m => m.color
        | none => ⟨0, 0, 0⟩
      if st.seq_y < 50 then ({ st with halted := true }, [])
      else
        let r := wrapLoop sw font_name font_size (page_w - 2 * 50) 50
          (pySplit line) "" st.seq_y
        ({ st with seq_y := r.2 },
          Op.setFont font_name font_size :: Op.setFill text_color :: r.1)

/-- The Step 2 drawing loop over all (line, match) pairs. -/
def renderLines (sw : String → String → ℚ → ℚ) (page_h page_w : ℚ) :
    FlowState → List (String × Option TextElement) → List Op
  | _, [] => []
  | st, p :: rest =>
    let r := renderLine sw page_h page_w st p.1 p.2
    r.2 ++ renderLines sw page_h page_w r.1 rest

/-- Per-line body of the Step 1 background loop of
_rebuild_page_with_metadata (lines 219-244): for a matched header line,
resolve the background at the matched element's y and draw a full-width band
at the element's y minus 5 with height twice the font size, in resolved or
default light-gray color. -/
def headerBgOpsForLine (page_h page_w : ℚ) (gs : List GraphicElement)
    (rawLine : String) (matched : Option TextElement) : List Op :=
  let line := pyStrip rawLine
  if is_header_line line then
    match matched with
    | none => []
    | some m =>
      match find_background_for_y m.y gs with
      | some bg_color =>
        let bg_y_topdown := m.y - 5
        let bg_height := m.font_size * 2
        let rl_y := page_h - bg_y_topdown - bg_height
        [Op.drawRect 0 rl_y page_w bg_height bg_color true]
      | none =>
        let bg_height := m.font_size * 2
        let rl_y := page_h - m.y - bg_height + 5
        [Op.drawRect 0 rl_y page_w bg_height ⟨94/100, 94/100, 94/100⟩ true]
  else []

/-- The Step 1 background loop over all (line, match) pairs. -/
def headerBackgroundOps (page_h page_w : ℚ)
    (pairs : List (String × Option TextElement)) (gs : List GraphicElement) : List Op :=
  pairs.flatMap (fun p => headerBgOpsForLine page_h page_w gs p.1 p.2)

/-- Embeds the non-raising path of _rebuild_page_with_metadata: split the
cleaned text into lines, match them to the page's elements, draw the header
background bands, then run the sequential drawing loop from just below the
top margin. -/
def rebuild_page_with_metadata_ops (sw : String → String → ℚ → ℚ)
    (ps : PageStructure) (cleaned_text : String) : List Op :=
  let lines := pySplitLines cleaned_text
  let ms := match_text_to_elements lines ps.text_elements
  let pairs := lines.zip ms
  headerBackgroundOps ps.height ps.width pairs ps.graphic_elements
    ++ renderLines sw ps.height ps.width ⟨ps.height - 50, false⟩ pairs

/-- Embeds _draw_graphic_elements from pdf_rebuild.py (happy path): each
rect element is drawn with its color and fill flag. -/
def draw_graphic_elements_ops (gs : List GraphicElement) : List Op :=
  gs.flatMap (fun e =>
    if e.element_type = "rect" then
      [Op.drawRect e.x e.y e.width e.height e.color e.fill]
    else [])

/-- The line loop of _rebuild_simple: each line truncated to its first 100
characters, cursor stepping down by 11 times 1.4, stopping once the cursor
crosses the bottom margin of 50. -/
def simpleLoop : ℚ → List String → List Op
  | _, [] => []
  | y, l :: ls =>
    if y < 50 then []
    else Op.drawString 50 y (pyTake l 100) :: simpleLoop (y - 11 * (14/10)) ls

/-- Embeds _rebuild_simple from pdf_rebuild.py. -/
def rebuild_simple_ops (ps : PageStructure) (cleaned_text : String) : List Op :=
  Op.setFont "Helvetica" 11 :: simpleLoop (ps.height - 50) (pySplitLines cleaned_text)

/-- Helper for pySplitParas: split on a double newline, greedily left to
right. -/
def splitNl2Aux : List Char → List Char → List String
  | '\n' :: '\n' :: rest, cur => String.mk cur.reverse :: splitNl2Aux rest []
  | c :: rest, cur => splitNl2Aux rest (c :: cur)
  | [], cur => [String.mk cur.reverse]

/-- Python str.split on a double-newline separator, as used by
_draw_wrapped_text for paragraphs. -/
def pySplitParas (s : String) : List String := splitNl2Aux s.toList []

/-- The per-paragraph word-wrap loop of _draw_wrapped_text (no margin guard
inside the wrap, unlike the metadata path). -/
def wrapPara (sw : String → String → ℚ → ℚ) (font : String) (size x maxw lh : ℚ) :
    List String → String → ℚ → List Op × ℚ
  | [], cur, cy => if cur ≠ "" then ([Op.drawString x cy cur], cy - lh) else ([], cy)
  | w :: ws, cur, cy =>
    let test := if cur ≠ "" then cur ++ " " ++ w else w
    if sw test font size ≤ maxw then wrapPara sw font size x maxw lh ws test cy
    else if cur ≠ "" then
      let r := wrapPara sw font size x maxw lh ws w (cy - lh)
      (Op.drawString x cy cur :: r.1, r.2)
    else wrapPara sw font size x maxw lh ws w cy

/-- The paragraph loop of _draw_wrapped_text: a blank paragraph advances the
cursor by one line height, others word-wrap; after a drawn paragraph the
cursor drops another half line height and rendering stops below 50. -/
def drawWrappedParas (sw : String → String → ℚ → ℚ) (font : String)
    (size x maxw lh : ℚ) : ℚ → List String → List Op
  | _, [] => []
  | cy, p :: ps =>
    if pyStrip p = "" then drawWrappedParas sw font size x maxw lh (cy - lh) ps
    else
      let r := wrapPara sw font size x maxw lh (pySplit p) "" cy
      let cy2 := r.2 - lh / 2
      r.1 ++ (if cy2 < 50 then [] else drawWrappedParas sw font size x maxw lh cy2 ps)

/-- Embeds _rebuild_with_positions from pdf_rebuild.py: with no elements it
degrades to simple; otherwise the cleaned text is wrapped from the first
element's position with the first element's font and size. fontOk abstracts
whether the canvas accepts the raw font name (the try/except around
setFont). -/
def rebuild_with_positions_ops (sw : String → String → ℚ → ℚ) (fontOk : String → Bool)
    (ps : PageStructure) (cleaned_text : String) : List Op :=
  match ps.text_elements with
  | [] => rebuild_simple_ops ps cleaned_text
  | first :: _ =>
    let fname := if fontOk first.font_name then first.font_name else "Helvetica"
    Op.setFont fname first.font_size ::
      drawWrappedParas sw fname first.font_size first.x (ps.width - 100)
        (first.font_size * (14/10)) first.y (pySplitParas cleaned_text)

/-- Embeds _rebuild_page from pdf_rebuild.py (the legacy fallback):
graphics, default font and fill, then the positional rebuild when any text
element exists, else the simple one. -/
def rebuild_page_ops (sw : String → String → ℚ → ℚ) (fontOk : String → Bool)
    (ps : PageStructure) (cleaned_text : String) : List Op :=
  draw_graphic_elements_ops ps.graphic_elements
    ++ Op.setFont "Helvetica" 12 :: Op.setFill ⟨0, 0, 0⟩ ::
      (if ps.text_elements.isEmpty then rebuild_simple_ops ps cleaned_text
       else rebuild_with_positions_ops sw fontOk ps cleaned_text)

/-- The catch in _rebuild_page_with_metadata: the metadata path when it does
not raise, else the legacy _rebuild_page fallback; metaRaises abstracts
whether the metadata rendering raises. -/
def rebuild_page_dispatch (sw : String → String → ℚ → ℚ) (fontOk : String → Bool)
    (metaRaises : Bool) (ps : PageStructure) (cleaned_text : String) : List Op :=
  if metaRaises then rebuild_page_ops sw fontOk ps cleaned_text
  else rebuild_page_with_metadata_ops sw ps cleaned_text

/-- The page loop of rebuild_pdf: each page is rendered from its own
(structure, cleaned text, raises) triple. -/
def rebuild_pdf_pages (sw : String → String → ℚ → ℚ) (fontOk : String → Bool)
    (pages : List (PageStructure × String × Bool)) : List (List Op) :=
  pages.map (fun p => rebuild_page_dispatch sw fontOk p.2.2 p.1 p.2.1)

lemma bgStep_of_not_inBand (y : ℚ) (s : Option RGB) (g : GraphicElement)
    (h : ¬ inBand y g) : bgStep y s g = s := by
  unfold bgStep inBand at *
  by_cases h1 : g.fill = true ∧ g.element_type = "rect"
  · by_cases h2 : g.y ≤ y ∧ y ≤ g.y + g.height
    · exact absurd ⟨h1.1, h1.2, h2.1, h2.2⟩ h
    · simp [h1, h2]
  · simp [h1]

lemma bgStep_of_dark (y : ℚ) (s : Option RGB) (g : GraphicElement)
    (h : meanIntensity g.color < 1/2) : bgStep y s g = s := by
  unfold bgStep
  by_cases h1 : g.fill = true ∧ g.element_type = "rect"
  · by_cases h2 : g.y ≤ y ∧ y ≤ g.y + g.height
    · rw [if_pos h1, if_pos h2, if_pos h]
    · rw [if_pos h1, if_neg h2]
  · rw [if_neg h1]

lemma bgStep_of_qualifying (y : ℚ) (s : Option RGB) (g : GraphicElement)
    (h : qualifying y g) : bgStep y s g = some g.color := by
  obtain ⟨⟨hf, ht, h1, h2⟩, hlo, hhi⟩ := h
  unfold bgStep
  rw [if_pos ⟨hf, ht⟩, if_pos ⟨h1, h2⟩, if_neg (not_lt.mpr hlo), if_neg (not_lt.mpr hhi)]

lemma bgStep_of_resetting (y : ℚ) (s : Option RGB) (g : GraphicElement)
    (h : resetting y g) : bgStep y s g = none := by
  obtain ⟨⟨hf, ht, h1, h2⟩, hhi⟩ := h
  unfold bgStep
  have hnd : ¬ meanIntensity g.color < 1/2 := by
    have : (1:ℚ)/2 ≤ 98/100 := by norm_num
    exact not_lt.mpr (le_trans this (le_of_lt hhi))
  rw [if_pos ⟨hf, ht⟩, if_pos ⟨h1, h2⟩, if_neg hnd, if_pos hhi]

/-- A skip element (neither qualifying nor resetting) leaves any state
unchanged. -/
lemma bgStep_of_skip (y : ℚ) (s : Option RGB) (g : GraphicElement)
    (hq : ¬ qualifying y g) (hr : ¬ resetting y g) : bgStep y s g = s := by
  by_cases hb : inBand y g
  · rcases lt_or_le (meanIntensity g.color) (1/2) with hlt | hge
    · exact bgStep_of_dark y s g hlt
    · rcases le_or_lt (meanIntensity g.color) (98/100) with hle | hgt
      · exact absurd ⟨hb, hge, hle⟩ hq
      · exact absurd ⟨hb, hgt⟩ hr
  · exact bgStep_of_not_inBand y s g hb

lemma foldl_bgStep_skip (y : ℚ) (gs : List GraphicElement) (s : Option RGB)
    (h : ∀ g ∈ gs, ¬ qualifying y g ∧ ¬ resetting y g) :
    gs.foldl (bgStep y) s = s := by
  induction gs generalizing s with
  | nil => rfl
  | cons g rest ih =>
    have hg := h g (List.mem_cons_self g rest)
    rw [List.foldl_cons, bgStep_of_skip y s g hg.1 hg.2]
    exact ih s (fun g' hg' => h g' (List.mem_cons_of_mem g hg'))

lemma foldl_bgStep_none (y : ℚ) (gs : List GraphicElement)
    (h : ∀ g ∈ gs, ¬ qualifying y g) :
    gs.foldl (bgStep y) none = none := by
  induction gs with
  | nil => rfl
  | cons g rest ih =>
    have hg := h g (List.mem_cons_self g rest)
    have step : bgStep y none g = none := by
      by_cases hb : inBand y g
      · rcases lt_or_le (meanIntensity g.color) (1/2) with hlt | hge
        · exact bgStep_of_dark y none g hlt
        · rcases le_or_lt (meanIntensity g.color) (98/100) with hle | hgt
          · exact absurd ⟨hb, hge, hle⟩ hg
          · exact bgStep_of_resetting y none g ⟨hb, hgt⟩
      · exact bgStep_of_not_inBand y none g hb
    rw [List.foldl_cons, step]
    exact ih (fun g' hg' => h g' (List.mem_cons_of_mem g hg'))

/-- C1: background resolution returns the color of the last qualifying
rectangle (in-band, mean intensity in [0.5, 0.98]) provided no later in-band
rectangle resets (mean intensity above 0.98); a dark or out-of-band element
never affects the result; a resetting element clears everything before it;
and the result is none when no qualifying rectangle exists. -/
theorem C1_find_background_characterization (y : ℚ)
    (gs1 gs2 : List GraphicElement) (g : GraphicElement) :
    (qualifying y g → (∀ h ∈ gs2, ¬ qualifying y h ∧ ¬ resetting y h) →
      find_background_for_y y (gs1 ++ g :: gs2) = some g.color)
    ∧ ((¬ inBand y g ∨ meanIntensity g.color < 1/2) →
      find_background_for_y y (gs1 ++ g :: gs2) = find_background_for_y y (gs1 ++ gs2))
    ∧ (resetting y g →
      find_background_for_y y (gs1 ++ g :: gs2) = find_background_for_y y gs2)
    ∧ ((∀ h ∈ gs1, ¬ qualifying y h) → find_background_for_y y gs1 = none) := by
  unfold find_background_for_y
  refine ⟨?_, ?_, ?_, ?_⟩
  · intro hq hrest
    rw [List.foldl_append, List.foldl_cons, bgStep_of_qualifying y _ g hq]
    exact foldl_bgStep_skip y gs2 (some g.color) hrest
  · intro hskip
    rw [List.foldl_append, List.foldl_cons, List.foldl_append]
    congr 1
    rcases hskip with hb | hd
    · exact bgStep_of_not_inBand y _ g hb
    · exact bgStep_of_dark y _ g hd
  · intro hr
    rw [List.foldl_append, List.foldl_cons, bgStep_of_resetting y _ g hr]
  · exact foldl_bgStep_none y gs1

/-- Witness for C1 at a concrete input: one dark rect, one valid light-gray
rect and a later out-of-band rect; the resolver returns the light gray. -/
theorem C1_witness :
    find_background_for_y 60
      [⟨"rect", 0, 0, 100, 100, ⟨1/10, 1/10, 1/10⟩, true⟩,
       ⟨"rect", 0, 50, 100, 20, ⟨8/10, 8/10, 8/10⟩, true⟩,
       ⟨"rect", 0, 200, 100, 20, ⟨1, 1, 1⟩, true⟩] = some ⟨8/10, 8/10, 8/10⟩ := by
  have h := (C1_find_background_characterization 60
    [⟨"rect", 0, 0, 100, 100, ⟨1/10, 1/10, 1/10⟩, true⟩]
    [⟨"rect", 0, 200, 100, 20, ⟨1, 1, 1⟩, true⟩]
    ⟨"rect", 0, 50, 100, 20, ⟨8/10, 8/10, 8/10⟩, true⟩).1
  apply h
  · refine ⟨⟨rfl, rfl, by norm_num, by norm_num⟩, ?_, ?_⟩ <;>
      simp [meanIntensity] <;> norm_num
  · intro h hmem
    simp only [List.mem_singleton] at hmem
    subst hmem
    constructor
    · intro hq
      exact absurd hq.1.2.2.1 (by norm_num)
    · intro hr
      exact absurd hr.1.2.2.1 (by norm_num)

lemma overlapGuard_some_replicate (d f : ℚ) (hf : 0 ≤ f) :
    ∀ (n : ℕ) (p : ℚ), p ≤ d →
      overlapGuard (some p) (List.replicate n (d, f)) =
        (List.range n).map (fun i : ℕ => p - f * ((i : ℚ) + 1)) := by
  intro n
  induction n with
  | zero => intro p _; rfl
  | succ n ih =>
    intro p hp
    have hmin : min d (p - f) = p - f := by
      apply min_eq_right
      linarith
    have hp' : p - f ≤ d := by linarith
    rw [List.replicate_succ]
    show (min d (p - f)) :: overlapGuard (some (min d (p - f))) (List.replicate n (d, f)) = _
    rw [hmin, ih (p - f) hp', List.range_succ_eq_map, List.map_cons, List.map_map]
    congr 1
    · ring
    · apply List.map_congr_left
      intro i _
      simp only [Function.comp_apply, Nat.succ_eq_add_one]
      push_cast
      ring

lemma overlapGuard_none_replicate (d f : ℚ) (hf : 0 ≤ f) (n : ℕ) :
    overlapGuard none (List.replicate n (d, f)) =
      (List.range n).map (fun i : ℕ => d - f * (i : ℚ)) := by
  cases n with
  | zero => rfl
  | succ n =>
    rw [List.replicate_succ]
    show d :: overlapGuard (some d) (List.replicate n (d, f)) = _
    rw [overlapGuard_some_replicate d f hf n d le_rfl,
      List.range_succ_eq_map, List.map_cons, List.map_map]
    congr 1
    · ring
    · apply List.map_congr_left
      intro i _
      simp only [Function.comp_apply, Nat.succ_eq_add_one]
      push_cast
      ring

/-- C5: in replay mode each placed baseline is min(desired_y,
previous_baseline - font_size); for identical desired baselines the guarded
outputs are strictly decreasing with consecutive gaps of at least one font
size; and two elements at y = 100 and y = 101 with font size 12 come out in
original top-to-bottom order, 12 units apart. -/
theorem C5_overlap_guard :
    (∀ (p d f : ℚ) (rest : List (ℚ × ℚ)),
      overlapGuard (some p) ((d, f) :: rest) =
        min d (p - f) :: overlapGuard (some (min d (p - f))) rest)
    ∧ (∀ (n : ℕ) (d f : ℚ), 0 < f →
      (overlapGuard none (List.replicate n (d, f))).Chain' (fun a b => b + f ≤ a)
      ∧ (overlapGuard none (List.replicate n (d, f))).Chain' (fun a b => b < a))
    ∧ (∀ (H x1 x2 f1 f2 : ℚ) (t1 t2 n1 n2 : String) (c1 c2 : RGB),
      replayBaselines H [⟨t1, x1, 100, n1, f1, c1⟩, ⟨t2, x2, 101, n2, f2, c2⟩] =
        [H - 100 - f1, min (H - 101 - f2) (H - 100 - f1 - f2)]) := by
  refine ⟨fun p d f rest => rfl, ?_, ?_⟩
  · intro n d f hf
    rw [overlapGuard_none_replicate d f (le_of_lt hf) n]
    constructor
    · rw [List.chain'_map]
      cases n with
      | zero => simp
      | succ m =>
        rw [List.chain'_range_succ]
        intro i _
        push_cast
        ring_nf
        linarith
    · rw [List.chain'_map]
      cases n with
      | zero => simp
      | succ m =>
        rw [List.chain'_range_succ]
        intro i _
        push_cast
        have : (0:ℚ) < f := hf
        nlinarith [this]
  · intro H x1 x2 f1 f2 t1 t2 n1 n2 c1 c2
    unfold replayBaselines
    have hsort : List.insertionSort yxR
        [⟨t1, x1, 100, n1, f1, c1⟩, ⟨t2, x2, 101, n2, f2, c2⟩] =
        [(⟨t1, x1, 100, n1, f1, c1⟩ : TextElement), ⟨t2, x2, 101, n2, f2, c2⟩] := by
      have hr : yxR ⟨t1, x1, 100, n1, f1, c1⟩ ⟨t2, x2, 101, n2, f2, c2⟩ := by
        unfold yxR
        left
        norm_num
      simp [List.insertionSort, List.orderedInsert, if_pos hr]
    rw [hsort]
    show (H - 100 - f1) ::
      overlapGuard (some (H - 100 - f1)) [(H - 101 - f2, f2)] = _
    rfl

/-- Witness for C5 at concrete inputs: the strict-decrease hypothesis 0 < 12
is discharged, and the concrete two-element scenario at page height 792
yields baselines 680 and 668, which are 12 apart. -/
theorem C5_witness :
    (overlapGuard none (List.replicate 3 ((100 : ℚ), (12 : ℚ)))).Chain' (fun a b => b < a)
    ∧ replayBaselines 792 [⟨"a", 0, 100, "F", 12, ⟨0, 0, 0⟩⟩,
        ⟨"b", 0, 101, "F", 12, ⟨0, 0, 0⟩⟩] = [680, 668] := by
  constructor
  · exact (C5_overlap_guard.2.1 3 100 12 (by norm_num)).2
  · rw [C5_overlap_guard.2.2 792 0 0 12 12 "a" "b" "F" "F" ⟨0, 0, 0⟩ ⟨0, 0, 0⟩]
    norm_num

lemma bestStep_eq (l : String) (acc : Option TextElement × ℕ) (e : TextElement) :
    bestStep l acc e = if acc.2 < scoreOf l e then (some e, scoreOf l e) else acc := by
  unfold bestStep scoreOf
  by_cases h : pyLower (pyStrip e.text) = ""
  · simp [h]
  · simp [h]

lemma foldl_bestStep_snd (l : String) :
    ∀ (es : List TextElement) (acc : Option TextElement × ℕ),
      (es.foldl (bestStep l) acc).2 = max acc.2 (maxScore l es) := by
  intro es
  induction es with
  | nil => intro acc; simp [maxScore]
  | cons e rest ih =>
    intro acc
    rw [List.foldl_cons, ih, bestStep_eq]
    by_cases h : acc.2 < scoreOf l e
    · rw [if_pos h]
      show max (scoreOf l e) (maxScore l rest) = max acc.2 (maxScore l (e :: rest))
      have : maxScore l (e :: rest) = max (scoreOf l e) (maxScore l rest) := rfl
      rw [this]
      omega
    · rw [if_neg h]
      have : maxScore l (e :: rest) = max (scoreOf l e) (maxScore l rest) := rfl
      rw [this]
      omega

lemma foldl_bestStep_stay (l : String) :
    ∀ (es : List TextElement) (acc : Option TextElement × ℕ),
      maxScore l es ≤ acc.2 → es.foldl (bestStep l) acc = acc := by
  intro es
  induction es with
  | nil => intro acc _; rfl
  | cons e rest ih =>
    intro acc hle
    have hmax : maxScore l (e :: rest) = max (scoreOf l e) (maxScore l rest) := rfl
    rw [hmax] at hle
    have h1 : scoreOf l e ≤ acc.2 := le_trans (le_max_left _ _) hle
    have h2 : maxScore l rest ≤ acc.2 := le_trans (le_max_right _ _) hle
    rw [List.foldl_cons, bestStep_eq, if_neg (not_lt.mpr h1)]
    exact ih acc h2

lemma foldl_bestStep_first_max (l : String) :
    ∀ (es : List TextElement) (acc : Option TextElement × ℕ),
      acc.2 < maxScore l es →
      ∃ es1 e es2, es = es1 ++ e :: es2 ∧ scoreOf l e = maxScore l es ∧
        (∀ e' ∈ es1, scoreOf l e' < maxScore l es) ∧
        (es.foldl (bestStep l) acc).1 = some e ∧
        (es.foldl (bestStep l) acc).2 = maxScore l es := by
  intro es
  induction es with
  | nil =>
    intro acc h
    exact absurd h (by simp [maxScore])
  | cons e rest ih =>
    intro acc hlt
    have hmax : maxScore l (e :: rest) = max (scoreOf l e) (maxScore l rest) := rfl
    by_cases h1 : acc.2 < scoreOf l e
    · by_cases h2 : scoreOf l e < maxScore l rest
      · have hm : maxScore l (e :: rest) = maxScore l rest := by rw [hmax]; omega
        have hacc : ((some e, scoreOf l e) : Option TextElement × ℕ).2 < maxScore l rest := h2
        obtain ⟨es1, e', es2, hdec, hsc, hstrict, hfst, hsnd⟩ := ih (some e, scoreOf l e) hacc
        refine ⟨e :: es1, e', es2, ?_, ?_, ?_, ?_, ?_⟩
        · rw [hdec]; rfl
        · rw [hm]; exact hsc
        · intro e'' he''
          rw [hm]
          rcases List.mem_cons.mp he'' with h | h
          · subst h; exact h2
          · exact hstrict e'' h
        · rw [List.foldl_cons, bestStep_eq, if_pos h1]; exact hfst
        · rw [List.foldl_cons, bestStep_eq, if_pos h1, hm]; exact hsnd
      · have hm : maxScore l (e :: rest) = scoreOf l e := by rw [hmax]; omega
        have hstay : rest.foldl (bestStep l) (some e, scoreOf l e) = (some e, scoreOf l e) :=
          foldl_bestStep_stay l rest (some e, scoreOf l e) (not_lt.mp h2)
        refine ⟨[], e, rest, rfl, hm.symm, by simp, ?_, ?_⟩
        · rw [List.foldl_cons, bestStep_eq, if_pos h1, hstay]
        · rw [List.foldl_cons, bestStep_eq, if_pos h1, hstay, hm]
    · have hsle : scoreOf l e ≤ acc.2 := not_lt.mp h1
      have hrest : acc.2 < maxScore l rest := by
        rw [hmax] at hlt; omega
      have hm : maxScore l (e :: rest) = maxScore l rest := by rw [hmax]; omega
      obtain ⟨es1, e', es2, hdec, hsc, hstrict, hfst, hsnd⟩ := ih acc hrest
      refine ⟨e :: es1, e', es2, ?_, ?_, ?_, ?_, ?_⟩
      · rw [hdec]; rfl
      · rw [hm]; exact hsc
      · intro e'' he''
        rw [hm]
        rcases List.mem_cons.mp he'' with h | h
        · subst h; omega
        · exact hstrict e'' h
      · rw [List.foldl_cons, bestStep_eq, if_neg h1]; exact hfst
      · rw [List.foldl_cons, bestStep_eq, if_neg h1, hm]; exact hsnd

lemma maxScore_zero_of_stay (l : String) (es : List TextElement)
    (h : maxScore l es = 0) : findBest l es = (none, 0) := by
  unfold findBest
  exact foldl_bestStep_stay l es (none, 0) (by omega)

/-- C3: the matcher considers only lines whose stripped length is at least 3;
scores candidates by the stated ladder (exact 100, line-starts-with-element
90, element-starts-with-line 85, element-in-line 80, line-in-element 70,
first-two-words 60, first-word 50); accepts a match only when the best score
strictly exceeds 45; exact equality outranks any prefix match; and the
recorded element is the first element in input order attaining the best
score, so ties keep the earliest candidate. -/
theorem C3_matcher_characterization :
    (∀ (lines : List String) (elems : List TextElement), elems ≠ [] →
      match_text_to_elements lines elems = lines.map (matchLine elems))
    ∧ (∀ (elems : List TextElement) (line : String), (pyStrip line).length < 3 →
      matchLine elems line = none)
    ∧ (∀ l et : String,
        (l = et → matchScore l et = 100)
        ∧ (l ≠ et → pyStartsWith l (pyTake et 20) = true → matchScore l et = 90)
        ∧ (l ≠ et → pyStartsWith l (pyTake et 20) = false →
            pyStartsWith et (pyTake l 20) = true → matchScore l et = 85)
        ∧ (l ≠ et → pyStartsWith l (pyTake et 20) = false →
            pyStartsWith et (pyTake l 20) = false →
            pyContains l et = true → matchScore l et = 80)
        ∧ (l ≠ et → pyStartsWith l (pyTake et 20) = false →
            pyStartsWith et (pyTake l 20) = false →
            pyContains l et = false → pyContains et l = true → matchScore l et = 70)
        ∧ (l ≠ et → pyStartsWith l (pyTake et 20) = false →
            pyStartsWith et (pyTake l 20) = false →
            pyContains l et = false → pyContains et l = false →
            2 ≤ ((pySplit l).take 2).length → 2 ≤ ((pySplit et).take 2).length →
            (pySplit l).take 2 = (pySplit et).take 2 → matchScore l et = 60)
        ∧ (l ≠ et → pyStartsWith l (pyTake et 20) = false →
            pyStartsWith et (pyTake l 20) = false →
            pyContains l et = false → pyContains et l = false →
            ¬ (2 ≤ ((pySplit l).take 2).length ∧ 2 ≤ ((pySplit et).take 2).length ∧
              (pySplit l).take 2 = (pySplit et).take 2) →
            (pySplit l).take 2 ≠ [] → (pySplit et).take 2 ≠ [] →
            ((pySplit l).take 2).head? = ((pySplit et).take 2).head? →
            matchScore l et = 50))
    ∧ (∀ l et : String, l = et → ∀ l' et' : String, l' ≠ et' →
        pyStartsWith l' (pyTake et' 20) = true → matchScore l' et' < matchScore l et)
    ∧ (∀ (elems : List TextElement) (line : String) (e : TextElement),
        matchLine elems line = some e →
        3 ≤ (pyStrip line).length
        ∧ 45 < scoreOf (pyLower (pyStrip line)) e
        ∧ ∃ es1 es2, elems = es1 ++ e :: es2
          ∧ scoreOf (pyLower (pyStrip line)) e = maxScore (pyLower (pyStrip line)) elems
          ∧ ∀ e' ∈ es1,
              scoreOf (pyLower (pyStrip line)) e' < scoreOf (pyLower (pyStrip line)) e) := by
  refine ⟨?_, ?_, ?_, ?_, ?_⟩
  · intro lines elems h
    unfold match_text_to_elements
    rw [if_neg (by simpa [List.isEmpty_iff] using h)]
  · intro elems line h
    unfold matchLine
    rw [if_pos (Or.inr h)]
  · intro l et
    refine ⟨?_, ?_, ?_, ?_, ?_, ?_, ?_⟩
    · intro h; unfold matchScore; rw [if_pos h]
    · intro h1 h2; unfold matchScore; rw [if_neg h1, if_pos h2]
    · intro h1 h2 h3; unfold matchScore
      rw [if_neg h1, if_neg (by simp [h2]), if_pos h3]
    · intro h1 h2 h3 h4; unfold matchScore
      rw [if_neg h1, if_neg (by simp [h2]), if_neg (by simp [h3]), if_pos h4]
    · intro h1 h2 h3 h4 h5; unfold matchScore
      rw [if_neg h1, if_neg (by simp [h2]), if_neg (by simp [h3]),
        if_neg (by simp [h4]), if_pos h5]
    · intro h1 h2 h3 h4 h5 h6 h7 h8; unfold matchScore
      rw [if_neg h1, if_neg (by simp [h2]), if_neg (by simp [h3]),
        if_neg (by simp [h4]), if_neg (by simp [h5])]
      show (if 2 ≤ ((pySplit l).take 2).length ∧ 2 ≤ ((pySplit et).take 2).length ∧
        (pySplit l).take 2 = (pySplit et).take 2 then 60 else _) = 60
      rw [if_pos ⟨h6, h7, h8⟩]
    · intro h1 h2 h3 h4 h5 h6 h7 h8 h9; unfold matchScore
      rw [if_neg h1, if_neg (by simp [h2]), if_neg (by simp [h3]),
        if_neg (by simp [h4]), if_neg (by simp [h5])]
      show (if 2 ≤ ((pySplit l).take 2).length ∧ 2 ≤ ((pySplit et).take 2).length ∧
        (pySplit l).take 2 = (pySplit et).take 2 then 60
        else if (pySplit l).take 2 ≠ [] ∧ (pySplit et).take 2 ≠ [] ∧
          ((pySplit l).take 2).head? = ((pySplit et).take 2).head? then 50 else 0) = 50
      rw [if_neg h6, if_pos ⟨h7, h8, h9⟩]
  · intro l et h l' et' h1 h2
    have e100 : matchScore l et = 100 := by unfold matchScore; rw [if_pos h]
    have e90 : matchScore l' et' = 90 := by unfold matchScore; rw [if_neg h1, if_pos h2]
    omega
  · intro elems line e hsome
    unfold matchLine at hsome
    by_cases htriv : pyStrip line = "" ∨ (pyStrip line).length < 3
    · rw [if_pos htriv] at hsome; exact absurd hsome (by simp)
    · rw [if_neg htriv] at hsome
      push_neg at htriv
      refine ⟨htriv.2, ?_⟩
      set l := pyLower (pyStrip line) with hl
      rcases Nat.eq_zero_or_pos (maxScore l elems) with hz | hpos
      · rw [show findBest l elems = (none, 0) from maxScore_zero_of_stay l elems hz] at hsome
        exact absurd hsome (by simp)
      · have h0 : ((none, 0) : Option TextElement × ℕ).2 < maxScore l elems := hpos
        obtain ⟨es1, e', es2, hdec, hsc, hstrict, hfst, hsnd⟩ :=
          foldl_bestStep_first_max l elems (none, 0) h0
        unfold findBest at hsome
        simp only [hfst, hsnd] at hsome
        by_cases h45 : 45 < maxScore l elems
        · rw [if_pos h45] at hsome
          have hee : e' = e := by simpa using hsome
          subst hee
          refine ⟨lt_of_lt_of_eq h45 hsc.symm, es1, es2, hdec, hsc, ?_⟩
          intro e'' he''
          rw [hsc]
          exact hstrict e'' he''
        · rw [if_neg h45] at hsome
          exact absurd hsome (by simp)

/-- Witness for C3 at a concrete input: one candidate whose stripped
lowercased text equals the line exactly; the matcher records it and the
theorem yields the threshold and first-best decomposition facts. -/

theorem C3_witness :
    3 ≤ (pyStrip "hello world").length
    ∧ 45 < scoreOf (pyLower (pyStrip "hello world"))
        ⟨"Hello world", 0, 0, "F", 12, ⟨0, 0, 0⟩⟩ := by
  have h := (C3_matcher_characterization.2.2.2.2
    [⟨"Hello world", 0, 0, "F", 12, ⟨0, 0, 0⟩⟩] "hello world"
    ⟨"Hello world", 0, 0, "F", 12, ⟨0, 0, 0⟩⟩ (by decide))
  exact ⟨h.1, h.2.1⟩

/-- C2: for every extracted page, raw_text equals the newline-join of the
text fields of its text_elements sorted by (y, x) ascending: there is a
(y, x)-sorted permutation of text_elements whose texts joined by newlines
give raw_text. -/
theorem C2_raw_text_roundtrip (page_num : ℕ) (w h : ℚ) (blocks : List Block)
    (gs : List GraphicElement) :
    ∃ L : List TextElement,
      L.Perm (extract_page page_num w h blocks gs).text_elements
      ∧ L.Sorted yxR
      ∧ (extract_page page_num w h blocks gs).raw_text =
          String.intercalate "\n" (L.map (fun e => e.text)) :=
  ⟨List.insertionSort yxR (extract_text_with_fitz w h blocks),
    List.perm_insertionSort yxR _,
    List.sorted_insertionSort yxR _,
    rfl⟩

lemma processLine_some_shape (w h : ℚ) (l : FitzLine) (te : TextElement)
    (hp : processLine w h l = some te) :
    ∃ first rest, goodSpans l = first :: rest
      ∧ te = ⟨pyStrip (lineTextOf l), l.x0, l.y0, first.font, first.size,
          decodeColor first.color⟩
      ∧ pyStrip (lineTextOf l) ≠ ""
      ∧ ¬ (l.x1 < 0 ∨ l.x0 > w ∨ l.y1 < 0 ∨ l.y0 > h)
      ∧ ¬ ((decodeColor first.color).r > 9/10 ∧ (decodeColor first.color).g > 9/10 ∧
          (decodeColor first.color).b > 9/10) := by
  unfold processLine at hp
  cases hg : goodSpans l with
  | nil => rw [hg] at hp; exact absurd hp (by simp)
  | cons first rest =>
    rw [hg] at hp
    dsimp only at hp
    by_cases h1 : pyStrip (lineTextOf l) = ""
    · rw [if_pos h1] at hp; exact absurd hp (by simp)
    · rw [if_neg h1] at hp
      by_cases h2 : l.x1 < 0 ∨ l.x0 > w ∨ l.y1 < 0 ∨ l.y0 > h
      · rw [if_pos h2] at hp; exact absurd hp (by simp)
      · rw [if_neg h2] at hp
        by_cases h3 : (decodeColor first.color).r > 9/10 ∧
            (decodeColor first.color).g > 9/10 ∧ (decodeColor first.color).b > 9/10
        · rw [if_pos h3] at hp; exact absurd hp (by simp)
        · rw [if_neg h3] at hp
          refine ⟨first, rest, rfl, ?_, h1, h2, h3⟩
          exact (Option.some_inj.mp hp).symm

lemma processLine_some_of_pass (w h : ℚ) (l : FitzLine) (first : Span) (rest : List Span)
    (hg : goodSpans l = first :: rest)
    (h1 : pyStrip (lineTextOf l) ≠ "")
    (h2 : ¬ (l.x1 < 0 ∨ l.x0 > w ∨ l.y1 < 0 ∨ l.y0 > h))
    (h3 : ¬ ((decodeColor first.color).r > 9/10 ∧ (decodeColor first.color).g > 9/10 ∧
        (decodeColor first.color).b > 9/10)) :
    processLine w h l =
      some ⟨pyStrip (lineTextOf l), l.x0, l.y0, first.font, first.size,
        decodeColor first.color⟩ := by
  unfold processLine
  rw [hg]
  dsimp only
  rw [if_neg h1, if_neg h2, if_neg h3]

/-- C6: a line whose decoded color has all three channels above 0.9 never
yields a text element (so near-white text is absent from text_elements and
hence from raw_text), and a line whose decoded color has some channel at or
below 0.9 is not removed by this filter (it passes through when the other,
independent filters pass). -/
theorem C6_white_text_filter :
    (∀ (w h : ℚ) (blocks : List Block) (te : TextElement),
      te ∈ extract_text_with_fitz w h blocks →
      ¬ (te.color.r > 9/10 ∧ te.color.g > 9/10 ∧ te.color.b > 9/10))
    ∧ (∀ (w h : ℚ) (l : FitzLine) (first : Span) (rest : List Span),
      goodSpans l = first :: rest →
      pyStrip (lineTextOf l) ≠ "" →
      ¬ (l.x1 < 0 ∨ l.x0 > w ∨ l.y1 < 0 ∨ l.y0 > h) →
      ¬ ((decodeColor first.color).r > 9/10 ∧ (decodeColor first.color).g > 9/10 ∧
          (decodeColor first.color).b > 9/10) →
      processLine w h l =
        some ⟨pyStrip (lineTextOf l), l.x0, l.y0, first.font, first.size,
          decodeColor first.color⟩) := by
  constructor
  · intro w h blocks te hmem
    obtain ⟨b, _, hb⟩ := List.mem_flatMap.mp hmem
    obtain ⟨l, _, hl⟩ := List.mem_filterMap.mp hb
    obtain ⟨first, rest, _, hshape, _, _, h3⟩ := processLine_some_shape w h l te hl
    rw [hshape]
    exact h3
  · exact processLine_some_of_pass

/-- Witness for C6 at a concrete input: a black two-character line fully on
a 100 by 100 page passes the white-text filter. -/
theorem C6_witness :
    processLine 100 100 ⟨[⟨"Hi", "F", 12, 0⟩], 0, 0, 10, 10⟩ =
      some ⟨"Hi", 0, 0, "F", 12, decodeColor 0⟩ := by
  have hc : decodeColor 0 = ⟨0, 0, 0⟩ := by
    simp [decodeColor]
  have h := C6_white_text_filter.2 100 100 ⟨[⟨"Hi", "F", 12, 0⟩], 0, 0, 10, 10⟩
    ⟨"Hi", "F", 12, 0⟩ []
    (by decide)
    (by decide)
    (by norm_num)
    (by rw [hc]; norm_num)
  simpa using h

/-- C7: the off-page test in _extract_text_with_fitz is exactly geometric
disjointness from the page rectangle (for well-formed boxes and
a nonempty page), a line whose bbox does not intersect the page is dropped,
and a line whose bbox intersects the page, including boxes straddling a
boundary, is retained whenever the other, independent filters pass. -/
theorem C7_offpage_filter :
    (∀ (w h : ℚ) (l : FitzLine), l.x0 ≤ l.x1 → l.y0 ≤ l.y1 → 0 ≤ w → 0 ≤ h →
      (bboxIntersectsPage w h l ↔ ¬ (l.x1 < 0 ∨ l.x0 > w ∨ l.y1 < 0 ∨ l.y0 > h)))
    ∧ (∀ (w h : ℚ) (l : FitzLine), l.x0 ≤ l.x1 → l.y0 ≤ l.y1 → 0 ≤ w → 0 ≤ h →
      ¬ bboxIntersectsPage w h l → processLine w h l = none)
    ∧ (∀ (w h : ℚ) (l : FitzLine) (first : Span) (rest : List Span),
      goodSpans l = first :: rest →
      pyStrip (lineTextOf l) ≠ "" →
      bboxIntersectsPage w h l →
      ¬ ((decodeColor first.color).r > 9/10 ∧ (decodeColor first.color).g > 9/10 ∧
          (decodeColor first.color).b > 9/10) →
      ∃ te, processLine w h l = some te) := by
  have hiff : ∀ (w h : ℚ) (l : FitzLine), l.x0 ≤ l.x1 → l.y0 ≤ l.y1 → 0 ≤ w → 0 ≤ h →
      (bboxIntersectsPage w h l ↔ ¬ (l.x1 < 0 ∨ l.x0 > w ∨ l.y1 < 0 ∨ l.y0 > h)) := by
    intro w h l hx hy hw hh
    constructor
    · rintro ⟨px, py, h1, h2, h3, h4, h5, h6, h7, h8⟩
      push_neg
      refine ⟨le_trans h3 h2, le_trans h1 h4, le_trans h7 h6, le_trans h5 h8⟩
    · intro hno
      push_neg at hno
      obtain ⟨hx1, hx0, hy1, hy0⟩ := hno
      refine ⟨max l.x0 0, max l.y0 0, le_max_left _ _, ?_, le_max_right _ _, ?_,
        le_max_left _ _, ?_, le_max_right _ _, ?_⟩
      · exact max_le hx hx1
      · exact max_le hx0 hw
      · exact max_le hy hy1
      · exact max_le hy0 hh
  refine ⟨hiff, ?_, ?_⟩
  · intro w h l hx hy hw hh hno
    have htest : l.x1 < 0 ∨ l.x0 > w ∨ l.y1 < 0 ∨ l.y0 > h := by
      by_contra hc
      exact hno ((hiff w h l hx hy hw hh).mpr hc)
    unfold processLine
    cases hg : goodSpans l with
    | nil => rfl
    | cons first rest =>
      dsimp only
      by_cases h1 : pyStrip (lineTextOf l) = ""
      · rw [if_pos h1]
      · rw [if_neg h1, if_pos htest]
  · intro w h l first rest hg h1 hinter h3
    have hno : ¬ (l.x1 < 0 ∨ l.x0 > w ∨ l.y1 < 0 ∨ l.y0 > h) := by
      obtain ⟨px, py, hh1, hh2, hh3, hh4, hh5, hh6, hh7, hh8⟩ := hinter
      push_neg
      refine ⟨le_trans hh3 hh2, le_trans hh1 hh4, le_trans hh7 hh6, le_trans hh5 hh8⟩
    exact ⟨_, processLine_some_of_pass w h l first rest hg h1 hno h3⟩

/-- Witness for C7 at a concrete input: a box straddling the left page edge
intersects the page and its line is retained. -/
theorem C7_witness :
    bboxIntersectsPage 100 100 ⟨[⟨"Hi", "F", 12, 0⟩], -5, 10, 5, 20⟩
    ∧ ∃ te, processLine 100 100 ⟨[⟨"Hi", "F", 12, 0⟩], -5, 10, 5, 20⟩ = some te := by
  have hinter : bboxIntersectsPage 100 100 ⟨[⟨"Hi", "F", 12, 0⟩], -5, 10, 5, 20⟩ :=
    (C7_offpage_filter.1 100 100 ⟨[⟨"Hi", "F", 12, 0⟩], -5, 10, 5, 20⟩
      (by norm_num) (by norm_num) (by norm_num) (by norm_num)).mpr (by norm_num)
  refine ⟨hinter, ?_⟩
  have hc : decodeColor 0 = ⟨0, 0, 0⟩ := by simp [decodeColor]
  exact C7_offpage_filter.2.2 100 100 ⟨[⟨"Hi", "F", 12, 0⟩], -5, 10, 5, 20⟩
    ⟨"Hi", "F", 12, 0⟩ [] (by decide) (by decide) hinter (by rw [hc]; norm_num)

/-- C10: a non-blank line whose stripped text contains SCANNED and has fewer
than 20 characters is skipped silently: no ops are emitted, it is never
classified as header or body, and the cursor state is unchanged. -/
theorem C10_scanned_artifact_skip (sw : String → String → ℚ → ℚ)
    (page_h page_w : ℚ) (st : FlowState) (rawLine : String)
    (matched : Option TextElement)
    (hrun : st.halted = false)
    (hne : pyStrip rawLine ≠ "")
    (hscan : pyContains (pyStrip rawLine) "SCANNED" = true)
    (hlen : (pyStrip rawLine).length < 20) :
    renderLine sw page_h page_w st rawLine matched = (st, []) := by
  unfold renderLine
  rw [if_neg (by simp [hrun]), if_neg hne, if_pos ⟨hscan, hlen⟩]

/-- Witness for C10 at a concrete input: a short scan-artifact line leaves
the state untouched and draws nothing. -/
theorem C10_witness :
    renderLine (fun _ _ _ => 0) 792 612 ⟨742, false⟩ "  SCANNED DOC  " none =
      (⟨742, false⟩, []) :=
  C10_scanned_artifact_skip (fun _ _ _ => 0) 792 612 ⟨742, false⟩ "  SCANNED DOC  "
    none rfl (by decide) (by decide) (by decide)

/-- C8: a matched header draws at the element's original position with the
resolved canonical font, the element's size (16 when the stored size is not
positive) and its color; an unmatched header draws bold Helvetica 16 black
at the running cursor; a matched body line wraps with the resolved font, the
element's size (11 default) and color; an unmatched body line wraps in
Times-Roman 11 black. -/
theorem C8_flow_styling (sw : String → String → ℚ → ℚ) (page_h page_w : ℚ)
    (st : FlowState) (rawLine : String) (m : TextElement)
    (hrun : st.halted = false)
    (hne : pyStrip rawLine ≠ "")
    (hart : ¬ (pyContains (pyStrip rawLine) "SCANNED" = true ∧
      (pyStrip rawLine).length < 20)) :
    (is_header_line (pyStrip rawLine) = true →
      renderLine sw page_h page_w st rawLine (some m) =
        ({ st with seq_y := page_h - m.y - (if m.font_size > 0 then m.font_size else 16)
            - (if m.font_size > 0 then m.font_size else 16) * (3/2) - 5 },
         [Op.setFont (map_font_name m.font_name) (if m.font_size > 0 then m.font_size else 16),
          Op.setFill m.color,
          Op.drawString 50 (page_h - m.y - (if m.font_size > 0 then m.font_size else 16))
            (pyStrip rawLine)]))
    ∧ (is_header_line (pyStrip rawLine) = true →
      renderLine sw page_h page_w st rawLine none =
        ({ st with seq_y := st.seq_y - 16 * (3/2) - 5 },
         [Op.setFont "Helvetica-Bold" 16, Op.setFill ⟨0, 0, 0⟩,
          Op.drawString 50 st.seq_y (pyStrip rawLine)]))
    ∧ (is_header_line (pyStrip rawLine) = false → 50 ≤ st.seq_y →
      renderLine sw page_h page_w st rawLine (some m) =
        ({ st with seq_y := (wrapLoop sw (map_font_name m.font_name)
            (if m.font_size > 0 then m.font_size else 11) (page_w - 2 * 50) 50
            (pySplit (pyStrip rawLine)) "" st.seq_y).2 },
         Op.setFont (map_font_name m.font_name) (if m.font_size > 0 then m.font_size else 11)
          :: Op.setFill m.color
          :: (wrapLoop sw (map_font_name m.font_name)
              (if m.font_size > 0 then m.font_size else 11) (page_w - 2 * 50) 50
              (pySplit (pyStrip rawLine)) "" st.seq_y).1))
    ∧ (is_header_line (pyStrip rawLine) = false → 50 ≤ st.seq_y →
      renderLine sw page_h page_w st rawLine none =
        ({ st with seq_y := (wrapLoop sw "Times-Roman" 11 (page_w - 2 * 50) 50
            (pySplit (pyStrip rawLine)) "" st.seq_y).2 },
         Op.setFont "Times-Roman" 11 :: Op.setFill ⟨0, 0, 0⟩
          :: (wrapLoop sw "Times-Roman" 11 (page_w - 2 * 50) 50
              (pySplit (pyStrip rawLine)) "" st.seq_y).1)) := by
  refine ⟨?_, ?_, ?_, ?_⟩
  · intro hh
    unfold renderLine
    rw [if_neg (by simp [hrun]), if_neg hne, if_neg hart, if_pos hh]
  · intro hh
    unfold renderLine
    rw [if_neg (by simp [hrun]), if_neg hne, if_neg hart, if_pos hh]
  · intro hh hcur
    unfold renderLine
    rw [if_neg (by simp [hrun]), if_neg hne, if_neg hart,
      if_neg (by simp [hh]), if_neg (not_lt.mpr hcur)]
  · intro hh hcur
    unfold renderLine
    rw [if_neg (by simp [hrun]), if_neg hne, if_neg hart,
      if_neg (by simp [hh]), if_neg (not_lt.mpr hcur)]

/-- Witness for C8 at a concrete input: a matched header with y = 50, size
16, Helvetica, drawn at bottom-up 726 on a 792-high page, cursor moved to
697. -/
theorem C8_witness :
    renderLine (fun _ _ _ => 0) 792 612 ⟨742, false⟩ "What is coverage?"
      (some ⟨"What is coverage?", 50, 50, "Helvetica", 16, ⟨0, 0, 0⟩⟩) =
      (⟨697, false⟩,
       [Op.setFont "Helvetica" 16, Op.setFill ⟨0, 0, 0⟩,
        Op.drawString 50 726 "What is coverage?"]) := by
  have h := (C8_flow_styling (fun _ _ _ => 0) 792 612 ⟨742, false⟩ "What is coverage?"
    ⟨"What is coverage?", 50, 50, "Helvetica", 16, ⟨0, 0, 0⟩⟩
    rfl (by decide) (by decide)).1 (by decide)
  rw [h]
  have hmap : map_font_name "Helvetica" = "Helvetica" := by decide
  have hstrip : pyStrip "What is coverage?" = "What is coverage?" := by decide
  have hif : (if (16 : ℚ) > 0 then (16 : ℚ) else 16) = 16 := by norm_num
  simp only [hmap, hstrip, hif]
  norm_num

/-- C4 as amended: the background band for a matched header is drawn not at
the matched element's y but at y minus 5 (the code applies a slight upward
offset), with height twice the font size, so its source-coordinate span is
[y - 5, y - 5 + 2 font_size]; with the resolved color when one resolves,
else the default light gray; at y = 50, font size 16 the span is [45, 77]. -/
theorem C4_header_band_amended (page_h page_w : ℚ) (gs : List GraphicElement)
    (rawLine : String) (m : TextElement)
    (hh : is_header_line (pyStrip rawLine) = true) :
    (∀ bg, find_background_for_y m.y gs = some bg →
      headerBgOpsForLine page_h page_w gs rawLine (some m) =
        [Op.drawRect 0 (page_h - (m.y - 5) - m.font_size * 2) page_w (m.font_size * 2) bg true]
      ∧ page_h - (page_h - (m.y - 5) - m.font_size * 2) - m.font_size * 2 = m.y - 5)
    ∧ (find_background_for_y m.y gs = none →
      headerBgOpsForLine page_h page_w gs rawLine (some m) =
        [Op.drawRect 0 (page_h - m.y - m.font_size * 2 + 5) page_w (m.font_size * 2)
          ⟨94/100, 94/100, 94/100⟩ true]
      ∧ page_h - (page_h - m.y - m.font_size * 2 + 5) - m.font_size * 2 = m.y - 5)
    ∧ (m.y = 50 → m.font_size = 16 →
      m.y - 5 = 45 ∧ m.y - 5 + m.font_size * 2 = 77) := by
  refine ⟨?_, ?_, ?_⟩
  · intro bg hbg
    constructor
    · unfold headerBgOpsForLine
      rw [if_pos hh]
      dsimp only
      rw [hbg]
    · ring
  · intro hbg
    constructor
    · unfold headerBgOpsForLine
      rw [if_pos hh]
      dsimp only
      rw [hbg]
    · ring
  · intro hy hf
    rw [hy, hf]
    norm_num

/-- Counterexample for C4 as stated: with a matched header element at y = 50,
font size 16 and a valid mid-gray background rectangle, the emitted band
sits at bottom-up 123 on a 200-high page, whose top-down top edge is 45, not
the matched element's y of 50 (so the band spans [45, 77], not [50, 82]). -/
theorem C4_counterexample :
    headerBgOpsForLine 200 612
      [⟨"rect", 0, 40, 612, 40, ⟨8/10, 8/10, 8/10⟩, true⟩]
      "What is coverage?"
      (some ⟨"What is coverage?", 50, 50, "Helvetica", 16, ⟨0, 0, 0⟩⟩) =
      [Op.drawRect 0 123 612 32 ⟨8/10, 8/10, 8/10⟩ true]
    ∧ (200 : ℚ) - 123 - 32 ≠ 50 := by
  have hbg : find_background_for_y 50
      [⟨"rect", 0, 40, 612, 40, ⟨8/10, 8/10, 8/10⟩, true⟩] =
      some ⟨8/10, 8/10, 8/10⟩ := by
    have hq : qualifying 50 ⟨"rect", 0, 40, 612, 40, ⟨8/10, 8/10, 8/10⟩, true⟩ :=
      ⟨⟨rfl, rfl, by norm_num, by norm_num⟩,
       by unfold meanIntensity; norm_num, by unfold meanIntensity; norm_num⟩
    have h1 : find_background_for_y 50
        [⟨"rect", 0, 40, 612, 40, ⟨8/10, 8/10, 8/10⟩, true⟩] =
        bgStep 50 none ⟨"rect", 0, 40, 612, 40, ⟨8/10, 8/10, 8/10⟩, true⟩ := rfl
    rw [h1, bgStep_of_qualifying 50 none _ hq]
  constructor
  · unfold headerBgOpsForLine
    rw [if_pos (by decide)]
    dsimp only
    rw [hbg]
    norm_num
  · norm_num

/-- Witness for the amended C4 at a concrete input: same scene as the
counterexample; the band's top-down top edge equals the matched y minus 5. -/
theorem C4_witness :
    headerBgOpsForLine 200 612
      [⟨"rect", 0, 40, 612, 40, ⟨8/10, 8/10, 8/10⟩, true⟩]
      "Why is coverage capped?"
      (some ⟨"Why is coverage capped?", 50, 50, "Helvetica", 16, ⟨0, 0, 0⟩⟩) =
      [Op.drawRect 0 (200 - ((50 : ℚ) - 5) - 16 * 2) 612 (16 * 2) ⟨8/10, 8/10, 8/10⟩ true]
    ∧ (200 : ℚ) - (200 - ((50 : ℚ) - 5) - 16 * 2) - 16 * 2 = 50 - 5 := by
  have hbg : find_background_for_y 50
      [⟨"rect", 0, 40, 612, 40, ⟨8/10, 8/10, 8/10⟩, true⟩] =
      some ⟨8/10, 8/10, 8/10⟩ := by
    have hq : qualifying 50 ⟨"rect", 0, 40, 612, 40, ⟨8/10, 8/10, 8/10⟩, true⟩ :=
      ⟨⟨rfl, rfl, by norm_num, by norm_num⟩,
       by unfold meanIntensity; norm_num, by unfold meanIntensity; norm_num⟩
    have h1 : find_background_for_y 50
        [⟨"rect", 0, 40, 612, 40, ⟨8/10, 8/10, 8/10⟩, true⟩] =
        bgStep 50 none ⟨"rect", 0, 40, 612, 40, ⟨8/10, 8/10, 8/10⟩, true⟩ := rfl
    rw [h1, bgStep_of_qualifying 50 none _ hq]
  have h := (C4_header_band_amended 200 612
    [⟨"rect", 0, 40, 612, 40, ⟨8/10, 8/10, 8/10⟩, true⟩]
    "Why is coverage capped?"
    ⟨"Why is coverage capped?", 50, 50, "Helvetica", 16, ⟨0, 0, 0⟩⟩
    (by decide)).1 ⟨8/10, 8/10, 8/10⟩ hbg
  exact h

lemma simpleLoop_truncates (x yy : ℚ) (t : String) :
    ∀ (y : ℚ) (ls : List String), Op.drawString x yy t ∈ simpleLoop y ls →
      t.length ≤ 100 := by
  intro y ls
  induction ls generalizing y with
  | nil => intro h; exact absurd h (by simp [simpleLoop])
  | cons l rest ih =>
    intro h
    unfold simpleLoop at h
    by_cases hy : y < 50
    · rw [if_pos hy] at h; exact absurd h (by simp)
    · rw [if_neg hy] at h
      rcases List.mem_cons.mp h with heq | hmem
      · have : t = pyTake l 100 := by
          injection heq with h1 h2 h3
        rw [this]
        unfold pyTake
        calc (String.mk (l.toList.take 100)).length
            = (l.toList.take 100).length := rfl
          _ ≤ 100 := by simp
      · exact ih (y - 11 * (14/10)) hmem

/-- Counterexample for C9 as stated: with the metadata path raising on a
page that still has one text element, the fallback emits the cleaned text as
a single untruncated 120-character draw at the first element's position,
contradicting the claimed simplest-strategy rendering with its fixed
100-character budget. -/
theorem C9_counterexample :
    rebuild_page_dispatch (fun _ _ _ => 0) (fun _ => true) true
      ⟨1, 612, 792, [⟨"T", 72, 100, "CustomFont", 10, ⟨0, 0, 0⟩⟩], [], "T"⟩
      "aaaaaaaaaaaaaaaaaaaaaaaaaaaaaaaaaaaaaaaaaaaaaaaaaaaaaaaaaaaaaaaaaaaaaaaaaaaaaaaaaaaaaaaaaaaaaaaaaaaaaaaaaaaaaaaaaaaaaaaa" =
      [Op.setFont "Helvetica" 12, Op.setFill ⟨0, 0, 0⟩,
       Op.setFont "CustomFont" 10,
       Op.drawString 72 100
         "aaaaaaaaaaaaaaaaaaaaaaaaaaaaaaaaaaaaaaaaaaaaaaaaaaaaaaaaaaaaaaaaaaaaaaaaaaaaaaaaaaaaaaaaaaaaaaaaaaaaaaaaaaaaaaaaaaaaaaaa"]
    ∧ ("aaaaaaaaaaaaaaaaaaaaaaaaaaaaaaaaaaaaaaaaaaaaaaaaaaaaaaaaaaaaaaaaaaaaaaaaaaaaaaaaaaaaaaaaaaaaaaaaaaaaaaaaaaaaaaaaaaaaaaaa" : String).length = 120 := by
  constructor
  · have h2 : rebuild_page_dispatch (fun _ _ _ => 0) (fun _ => true) true
        ⟨1, 612, 792, [⟨"T", 72, 100, "CustomFont", 10, ⟨0, 0, 0⟩⟩], [], "T"⟩
        "aaaaaaaaaaaaaaaaaaaaaaaaaaaaaaaaaaaaaaaaaaaaaaaaaaaaaaaaaaaaaaaaaaaaaaaaaaaaaaaaaaaaaaaaaaaaaaaaaaaaaaaaaaaaaaaaaaaaaaaa" =
        Op.setFont "Helvetica" 12 :: Op.setFill ⟨0, 0, 0⟩ ::
          Op.setFont "CustomFont" 10 ::
            drawWrappedParas (fun _ _ _ => 0) "CustomFont" 10 72 (612 - 100)
              (10 * (14/10)) 100
              (pySplitParas
                "aaaaaaaaaaaaaaaaaaaaaaaaaaaaaaaaaaaaaaaaaaaaaaaaaaaaaaaaaaaaaaaaaaaaaaaaaaaaaaaaaaaaaaaaaaaaaaaaaaaaaaaaaaaaaaaaaaaaaaaa") := rfl
    rw [h2]
    have hmw : (612 : ℚ) - 100 = 512 := by norm_num
    have hlh : (10 : ℚ) * (14/10) = 14 := by norm_num
    have hsplit : pySplitParas
        "aaaaaaaaaaaaaaaaaaaaaaaaaaaaaaaaaaaaaaaaaaaaaaaaaaaaaaaaaaaaaaaaaaaaaaaaaaaaaaaaaaaaaaaaaaaaaaaaaaaaaaaaaaaaaaaaaaaaaaaa" =
        ["aaaaaaaaaaaaaaaaaaaaaaaaaaaaaaaaaaaaaaaaaaaaaaaaaaaaaaaaaaaaaaaaaaaaaaaaaaaaaaaaaaaaaaaaaaaaaaaaaaaaaaaaaaaaaaaaaaaaaaaa"] := by
      decide
    rw [hmw, hlh, hsplit]
    have hwords : pySplit
        "aaaaaaaaaaaaaaaaaaaaaaaaaaaaaaaaaaaaaaaaaaaaaaaaaaaaaaaaaaaaaaaaaaaaaaaaaaaaaaaaaaaaaaaaaaaaaaaaaaaaaaaaaaaaaaaaaaaaaaaa" =
        ["aaaaaaaaaaaaaaaaaaaaaaaaaaaaaaaaaaaaaaaaaaaaaaaaaaaaaaaaaaaaaaaaaaaaaaaaaaaaaaaaaaaaaaaaaaaaaaaaaaaaaaaaaaaaaaaaaaaaaaaa"] := by
      decide
    have h7 : wrapPara (fun _ _ _ => 0) "CustomFont" 10 72 512 14
        ["aaaaaaaaaaaaaaaaaaaaaaaaaaaaaaaaaaaaaaaaaaaaaaaaaaaaaaaaaaaaaaaaaaaaaaaaaaaaaaaaaaaaaaaaaaaaaaaaaaaaaaaaaaaaaaaaaaaaaaaa"] "" 100 =
        ([Op.drawString 72 100
          "aaaaaaaaaaaaaaaaaaaaaaaaaaaaaaaaaaaaaaaaaaaaaaaaaaaaaaaaaaaaaaaaaaaaaaaaaaaaaaaaaaaaaaaaaaaaaaaaaaaaaaaaaaaaaaaaaaaaaaaa"], 100 - 14) := by
      unfold wrapPara
      dsimp only
      rw [if_neg (by decide : ¬ ("" : String) ≠ "")]
      rw [if_pos (by norm_num : (0 : ℚ) ≤ 512)]
      unfold wrapPara
      rw [if_pos (by decide :
        ("aaaaaaaaaaaaaaaaaaaaaaaaaaaaaaaaaaaaaaaaaaaaaaaaaaaaaaaaaaaaaaaaaaaaaaaaaaaaaaaaaaaaaaaaaaaaaaaaaaaaaaaaaaaaaaaaaaaaaaaa" : String) ≠ "")]
    have h6 : drawWrappedParas (fun _ _ _ => 0) "CustomFont" 10 72 512 14 100
        ["aaaaaaaaaaaaaaaaaaaaaaaaaaaaaaaaaaaaaaaaaaaaaaaaaaaaaaaaaaaaaaaaaaaaaaaaaaaaaaaaaaaaaaaaaaaaaaaaaaaaaaaaaaaaaaaaaaaaaaaa"] =
        (wrapPara (fun _ _ _ => 0) "CustomFont" 10 72 512 14
          ["aaaaaaaaaaaaaaaaaaaaaaaaaaaaaaaaaaaaaaaaaaaaaaaaaaaaaaaaaaaaaaaaaaaaaaaaaaaaaaaaaaaaaaaaaaaaaaaaaaaaaaaaaaaaaaaaaaaaaaaa"] "" 100).1 := by
      unfold drawWrappedParas
      rw [if_neg (by decide :
        ¬ pyStrip "aaaaaaaaaaaaaaaaaaaaaaaaaaaaaaaaaaaaaaaaaaaaaaaaaaaaaaaaaaaaaaaaaaaaaaaaaaaaaaaaaaaaaaaaaaaaaaaaaaaaaaaaaaaaaaaaaaaaaaaa" = "")]
      dsimp only
      rw [hwords]
      rw [show drawWrappedParas (fun _ _ _ => 0) "CustomFont" 10 72 512 14
        ((wrapPara (fun _ _ _ => 0) "CustomFont" 10 72 512 14
          ["aaaaaaaaaaaaaaaaaaaaaaaaaaaaaaaaaaaaaaaaaaaaaaaaaaaaaaaaaaaaaaaaaaaaaaaaaaaaaaaaaaaaaaaaaaaaaaaaaaaaaaaaaaaaaaaaaaaaaaaa"] "" 100).2 - 14/2) [] = ([] : List Op) from rfl]
      rw [ite_self, List.append_nil]
    rw [h6, h7]
  · decide

/-- C9 as amended: when metadata rendering raises, the page (and only that
page) falls back to the legacy rebuild: graphics plus the positional wrapped
rendering when text elements exist; only a page with no text elements uses
the simplest strategy, whose drawn lines are truncated to 100 characters and
which stops once the cursor is below the bottom margin; other pages are
unaffected. -/
theorem C9_fallback_amended :
    (∀ (sw : String → String → ℚ → ℚ) (fontOk : String → Bool)
      (ps : PageStructure) (text : String),
      rebuild_page_dispatch sw fontOk true ps text = rebuild_page_ops sw fontOk ps text)
    ∧ (∀ (sw : String → String → ℚ → ℚ) (fontOk : String → Bool)
      (ps : PageStructure) (text : String), ps.text_elements = [] →
      rebuild_page_ops sw fontOk ps text =
        draw_graphic_elements_ops ps.graphic_elements
          ++ Op.setFont "Helvetica" 12 :: Op.setFill ⟨0, 0, 0⟩ ::
            rebuild_simple_ops ps text)
    ∧ (∀ (x yy y : ℚ) (t : String) (ls : List String),
      Op.drawString x yy t ∈ simpleLoop y ls → t.length ≤ 100)
    ∧ (∀ (y : ℚ) (ls : List String), y < 50 → simpleLoop y ls = [])
    ∧ (∀ (sw : String → String → ℚ → ℚ) (fontOk : String → Bool)
      (pages : List (PageStructure × String × Bool)) (i : ℕ),
      (rebuild_pdf_pages sw fontOk pages)[i]? =
        (pages[i]?).map (fun p => rebuild_page_dispatch sw fontOk p.2.2 p.1 p.2.1)) := by
  refine ⟨fun _ _ _ _ => rfl, ?_, ?_, ?_, ?_⟩
  · intro sw fontOk ps text hempty
    unfold rebuild_page_ops
    rw [if_pos (by simp [hempty])]
  · intro x yy y t ls h
    exact simpleLoop_truncates x yy t y ls h
  · intro y ls hy
    cases ls with
    | nil => rfl
    | cons l rest => unfold simpleLoop; rw [if_pos hy]
  · intro sw fontOk pages i
    unfold rebuild_pdf_pages
    exact List.getElem?_map _ _ _

/-- Witness for the amended C9 at a concrete input: a page with no text
elements falls back to the simple strategy, and a long line drawn by the
simple loop is capped at 100 characters. -/
theorem C9_witness :
    rebuild_page_ops (fun _ _ _ => 0) (fun _ => true)
      ⟨1, 612, 792, [], [], ""⟩ "hi" =
      draw_graphic_elements_ops []
        ++ Op.setFont "Helvetica" 12 :: Op.setFill ⟨0, 0, 0⟩ ::
          rebuild_simple_ops ⟨1, 612, 792, [], [], ""⟩ "hi"
    ∧ simpleLoop 40 ["hi"] = [] := by
  constructor
  · exact C9_fallback_amended.2.1 (fun _ _ _ => 0) (fun _ => true)
      ⟨1, 612, 792, [], [], ""⟩ "hi" rfl
  · exact C9_fallback_amended.2.2.2.1 40 ["hi"] (by norm_num)

end PdfCore
